import Mathlib

/-!
Verification of the `DatePicker` component
(src/lib/components/DatePicker/index.tsx).

The component is embedded shallowly:

* JavaScript `Date` objects are modelled by `JsDate` (a proleptic Gregorian
  civil date: year, 0-based month, 1-based day) plus, where the time of day
  matters, `DateTime` (a civil date together with minutes since local
  midnight).  The mutating `setMonth` / `setFullYear` / `setDate` methods
  become pure functions with ECMAScript's day-overflow normalisation.
* Strings are modelled as `List Char`; the template literals and
  `padStart` calls of the source are reproduced character by character.
* `new Date(string)` is modelled by `jsNewDateStr`: 10-character
  "YYYY-MM-DD" strings follow the ECMAScript date-time string format and
  are interpreted as UTC midnight; other dash-separated numeric strings
  follow the engines' fallback parse and are interpreted as local time.
  The host environment's fixed UTC offset (in minutes) is an explicit
  parameter `tz`.
* The React component's state is the record `PickerState`; each event
  handler is a pure function from state to state plus an optional emitted
  `onChange` string.
-/

/-! ## The Gregorian calendar as ECMAScript Date uses it -/

/-- Proleptic Gregorian leap-year rule (the rule ECMAScript `Date` uses). -/
def isLeapYear (y : Int) : Bool :=
  (y.emod 4 == 0 && y.emod 100 != 0) || y.emod 400 == 0

/-- Number of days in 0-based month `m` of year `y`.  Months 0,2,4,6,7,9,11
are the 31-day months; months 3,5,8,10 have 30 days; month 1 (February) has
28 or 29 days.  Arguments `m ≥ 12` never arise (callers normalise first)
and fall into the 31-day default. -/
def daysInMonth (y : Int) (m : Nat) : Nat :=
  if m = 1 then (if isLeapYear y then 29 else 28)
  else if m = 3 || m = 5 || m = 8 || m = 10 then 30
  else 31

theorem daysInMonth_ge (y : Int) (m : Nat) : 28 ≤ daysInMonth y m := by
  unfold daysInMonth
  split
  · split <;> omega
  · split <;> omega

theorem daysInMonth_le (y : Int) (m : Nat) : daysInMonth y m ≤ 31 := by
  unfold daysInMonth
  split
  · split <;> omega
  · split <;> omega

/-- A JavaScript `Date`, restricted to its civil-date part.  Invariant kept
by every operation below: `month < 12` and `1 ≤ day ≤ 31`. -/
structure JsDate where
  year : Int
  month : Nat
  day : Nat
deriving DecidableEq, Repr

/-- Normalise a (year, possibly out-of-range month) pair the way the
`Date` constructor and `setMonth` do: month `-1` is December of the
previous year, month `12` is January of the next year, and so on. -/
def normYM (y : Int) (m : Int) : Int × Nat :=
  (y + m.ediv 12, (m.emod 12).toNat)

/-- The month after `(y, m)` (with `m` already in `0..11`). -/
def nextYM (y : Int) (m : Nat) : Int × Nat :=
  if 11 ≤ m then (y + 1, 0) else (y, m + 1)

/-- The month before `(y, m)` (with `m` already in `0..11`). -/
def prevYM (y : Int) (m : Nat) : Int × Nat :=
  if m = 0 then (y - 1, 11) else (y, m - 1)

/-- Resolve a day-of-month that may exceed the month's length, as
ECMAScript time values do: `Feb 31` becomes `Mar 3` (or `Mar 2` in a leap
year).  Because every day stored in a `JsDate` is at most 31 and every
month has at least 28 days, the overflow is at most 3 days, so at most one
month boundary is crossed; this function performs exactly that one step. -/
def rollDay (y : Int) (m : Nat) (day : Nat) : JsDate :=
  if day ≤ daysInMonth y m then ⟨y, m, day⟩
  else
    let ym := nextYM y m
    ⟨ym.1, ym.2, day - daysInMonth y m⟩

/-- JavaScript `date.setMonth(m)`: keep year and day-of-month, set the
month (normalising out-of-range months into adjacent years), then resolve
day overflow. -/
def setMonth (d : JsDate) (m : Int) : JsDate :=
  let ym := normYM d.year m
  rollDay ym.1 ym.2 d.day

/-- JavaScript `date.setFullYear(y)`: keep month and day-of-month, set the
year, then resolve day overflow (Feb 29 of a leap year becomes Mar 1 in a
non-leap year). -/
def setFullYear (d : JsDate) (y : Int) : JsDate :=
  rollDay y d.month d.day

/-- JavaScript `new Date(y, m, day)` for a day argument `≥ 0`:
normalise the month, then resolve the day (day `0` is the last day of the
preceding month). -/
def jsMkDate (y : Int) (m : Int) (day : Nat) : JsDate :=
  let ym := normYM y m
  if day = 0 then
    let pm := prevYM ym.1 ym.2
    ⟨pm.1, pm.2, daysInMonth pm.1 pm.2⟩
  else rollDay ym.1 ym.2 day

/-- JavaScript `date.setDate(n)` for the arguments the source uses
(`1`, and `getDate() - 1` which can be `0`): day `n ≥ 1` is a day of the
current month (with overflow resolution), day `0` is the last day of the
previous month. -/
def setDate (d : JsDate) (n : Int) : JsDate :=
  if 1 ≤ n then rollDay d.year d.month n.toNat
  else
    let pm := prevYM d.year d.month
    ⟨pm.1, pm.2, ((daysInMonth pm.1 pm.2 : Int) + n).toNat⟩

/-- Days since the epoch 1970-01-01 of a civil date (the standard
`days_from_civil` computation over eras of 400 years).  Used only to
obtain the day of the week. -/
def daysFromCivil (dt : JsDate) : Int :=
  let m1 : Nat := dt.month + 1
  let y : Int := dt.year - (if m1 ≤ 2 then 1 else 0)
  let era : Int := y.fdiv 400
  let yoe : Nat := (y - era * 400).toNat
  let mp : Nat := (m1 + 9) % 12
  let doy : Nat := (153 * mp + 2) / 5 + (dt.day - 1)
  let doe : Nat := yoe * 365 + yoe / 4 - yoe / 100 + doy
  era * 146097 + (doe : Int) - 719468

/-- JavaScript `date.getDay()`: 0 = Sunday … 6 = Saturday.  The epoch day
1970-01-01 was a Thursday (4). -/
def getDay (d : JsDate) : Nat :=
  ((daysFromCivil d + 4).emod 7).toNat

theorem getDay_lt (d : JsDate) : getDay d < 7 := by
  unfold getDay
  have h1 := Int.emod_lt_of_pos (daysFromCivil d + 4) (by decide : (0 : Int) < 7)
  exact (Int.toNat_lt' (by decide)).mpr h1

/-! ## Decimal rendering and parsing of numbers, character by character -/

/-- Is `c` one of the characters `0`-`9`? -/
def isDigitChar (c : Char) : Bool :=
  48 ≤ c.toNat && c.toNat ≤ 57

/-- Numeric value of a digit character (`'0'` ↦ 0, …, `'9'` ↦ 9). -/
def digitVal (c : Char) : Nat :=
  c.toNat - 48

/-- The decimal digit character for `n < 10` (values `≥ 9` all render as
`'9'`; they never arise). -/
def digitChar (n : Nat) : Char :=
  match n with
  | 0 => '0' | 1 => '1' | 2 => '2' | 3 => '3' | 4 => '4'
  | 5 => '5' | 6 => '6' | 7 => '7' | 8 => '8' | _ => '9'

/-- Little-endian decimal digits of `n`, with explicit fuel so that the
recursion is structural.  `natDigitsRev` supplies sufficient fuel. -/
def natDigitsRevAux : Nat → Nat → List Nat
  | 0, _ => []
  | f + 1, n => if n < 10 then [n] else n % 10 :: natDigitsRevAux f (n / 10)

/-- Little-endian decimal digits of `n` (`0` has the single digit `0`,
matching JavaScript's `String(0) = "0"`). -/
def natDigitsRev (n : Nat) : List Nat :=
  natDigitsRevAux (n + 1) n

/-- Decimal rendering of a natural number, as JavaScript's number-to-string
conversion produces it for integral values. -/
def natToChars (n : Nat) : List Char :=
  ((natDigitsRev n).map digitChar).reverse

/-- Decimal rendering of an integer (a leading `'-'` for negatives). -/
def intToChars (i : Int) : List Char :=
  if i < 0 then '-' :: natToChars (-i).toNat else natToChars i.toNat

/-- JavaScript `String.prototype.padStart(2, "0")`: left-pad to length 2
with `'0'`; longer strings are returned unchanged. -/
def padStart2 (cs : List Char) : List Char :=
  if cs.length < 2 then List.replicate (2 - cs.length) '0' ++ cs else cs

/-- Value of a list of decimal digit characters, most significant first. -/
def valDigits (cs : List Char) : Nat :=
  cs.foldl (fun a c => a * 10 + digitVal c) 0

theorem natDigitsRevAux_fuel (f g n : Nat) (hf : n < f) (hg : n < g) :
    natDigitsRevAux f n = natDigitsRevAux g n := by
  induction f generalizing g n with
  | zero => omega
  | succ f ih =>
    match g, hg with
    | g + 1, hg =>
      show (if n < 10 then [n] else n % 10 :: natDigitsRevAux f (n / 10)) =
        (if n < 10 then [n] else n % 10 :: natDigitsRevAux g (n / 10))
      by_cases h : n < 10
      · simp [h]
      · simp only [h, if_false]
        have hd : n / 10 < n := Nat.div_lt_self (by omega) (by omega)
        rw [ih g (n / 10) (by omega) (by omega)]

theorem natDigitsRev_lt (n : Nat) (h : n < 10) : natDigitsRev n = [n] := by
  simp [natDigitsRev, natDigitsRevAux, h]

theorem natDigitsRev_ge (n : Nat) (h : 10 ≤ n) :
    natDigitsRev n = n % 10 :: natDigitsRev (n / 10) := by
  have hd : n / 10 < n := Nat.div_lt_self (by omega) (by omega)
  show natDigitsRevAux (n + 1) n = _
  rw [show natDigitsRevAux (n + 1) n =
      if n < 10 then [n] else n % 10 :: natDigitsRevAux n (n / 10) from rfl]
  simp only [Nat.not_lt.mpr h, if_false]
  rw [natDigitsRevAux_fuel n (n / 10 + 1) (n / 10) (by omega) (by omega)]
  rfl

theorem natToChars_lt (n : Nat) (h : n < 10) : natToChars n = [digitChar n] := by
  simp [natToChars, natDigitsRev_lt n h]

theorem natToChars_step (n k : Nat) (hn : 1 ≤ n) (hk : k < 10) :
    natToChars (n * 10 + k) = natToChars n ++ [digitChar k] := by
  have h10 : 10 ≤ n * 10 + k := by omega
  have hmod : (n * 10 + k) % 10 = k := by omega
  have hdiv : (n * 10 + k) / 10 = n := by omega
  simp [natToChars, natDigitsRev_ge _ h10, hmod, hdiv]

theorem natToChars_two (a b : Nat) (ha1 : 1 ≤ a) (ha : a < 10) (hb : b < 10) :
    natToChars (a * 10 + b) = [digitChar a, digitChar b] := by
  rw [natToChars_step a b ha1 hb, natToChars_lt a ha]
  rfl

theorem natToChars_four (a b c d : Nat) (ha1 : 1 ≤ a) (ha : a < 10)
    (hb : b < 10) (hc : c < 10) (hd : d < 10) :
    natToChars (((a * 10 + b) * 10 + c) * 10 + d) =
      [digitChar a, digitChar b, digitChar c, digitChar d] := by
  rw [natToChars_step _ d (by omega) hd, natToChars_step _ c (by omega) hc,
    natToChars_two a b ha1 ha hb]
  rfl

theorem digitVal_digitChar (k : Nat) (h : k < 10) : digitVal (digitChar k) = k := by
  interval_cases k <;> rfl

theorem isDigitChar_digitChar (k : Nat) (h : k < 10) :
    isDigitChar (digitChar k) = true := by
  interval_cases k <;> rfl

theorem toNat_digitChar (k : Nat) (h : k < 10) : (digitChar k).toNat = 48 + k := by
  interval_cases k <;> rfl

theorem char_eq_of_toNat_eq {a b : Char} (h : a.toNat = b.toNat) : a = b :=
  Char.ext (UInt32.ext h)

theorem digitChar_digitVal {c : Char} (h : isDigitChar c = true) :
    digitChar (digitVal c) = c := by
  have hb : 48 ≤ c.toNat ∧ c.toNat ≤ 57 := by
    simpa [isDigitChar] using h
  have hv : digitVal c < 10 := by unfold digitVal; omega
  apply char_eq_of_toNat_eq
  rw [toNat_digitChar _ hv]
  unfold digitVal
  omega

theorem digitVal_lt {c : Char} (h : isDigitChar c = true) : digitVal c < 10 := by
  have hb : 48 ≤ c.toNat ∧ c.toNat ≤ 57 := by
    simpa [isDigitChar] using h
  unfold digitVal
  omega

theorem isDigitChar_ne_dash {c : Char} (h : isDigitChar c = true) : c ≠ '-' := by
  intro hc
  rw [hc] at h
  exact absurd h (by decide)

/-! ## String-level date parsing and formatting -/

/-- Split a character list at every `'-'` (like `"a-b-c".split("-")`,
yielding the groups between dashes; empty groups are kept). -/
def splitDash : List Char → List (List Char)
  | [] => [[]]
  | c :: rest =>
    let gs := splitDash rest
    if c = '-' then [] :: gs
    else
      match gs with
      | [] => [[c]]
      | g :: tl => (c :: g) :: tl

theorem splitDash_cons (c : Char) (rest : List Char) :
    splitDash (c :: rest) =
      if c = '-' then [] :: splitDash rest
      else
        match splitDash rest with
        | [] => [[c]]
        | g :: tl => (c :: g) :: tl := rfl

theorem splitDash_ne_nil (cs : List Char) : splitDash cs ≠ [] := by
  induction cs with
  | nil => simp [splitDash]
  | cons c rest ih =>
    unfold splitDash
    by_cases h : c = '-'
    · simp [h]
    · simp only [h, if_false]
      match hg : splitDash rest with
      | [] => simp
      | g :: tl => simp

theorem splitDash_dashfree (A : List Char) (h : ∀ c ∈ A, c ≠ '-') :
    splitDash A = [A] := by
  induction A with
  | nil => rfl
  | cons c rest ih =>
    have hc : c ≠ '-' := h c (by simp)
    have hrest := ih (fun x hx => h x (by simp [hx]))
    unfold splitDash
    simp only [hc, if_false, hrest]

theorem splitDash_append (A rest : List Char) (h : ∀ c ∈ A, c ≠ '-') :
    splitDash (A ++ '-' :: rest) = A :: splitDash rest := by
  induction A with
  | nil => simp [splitDash]
  | cons c tl ih =>
    have hc : c ≠ '-' := h c (by simp)
    have htl := ih (fun x hx => h x (by simp [hx]))
    show splitDash (c :: (tl ++ '-' :: rest)) = _
    rw [splitDash_cons]
    simp only [hc, if_false, htl]

/-- A `DateTime` is a civil date plus the minutes elapsed since local
midnight (`time = 0` means 00:00:00 local time). -/
structure DateTime where
  date : JsDate
  time : Nat
deriving DecidableEq, Repr

/-- Convert the UTC-midnight instant of civil date `d` into local civil
date and time of day, in an environment whose fixed UTC offset is `tz`
minutes (realistic offsets satisfy `-1440 < tz < 1440`).  A non-negative
offset keeps the civil date; a negative offset lands on the previous
day. -/
def utcToLocal (d : JsDate) (tz : Int) : DateTime :=
  if 0 ≤ tz then ⟨d, tz.toNat⟩
  else
    if 2 ≤ d.day then ⟨⟨d.year, d.month, d.day - 1⟩, (1440 + tz).toNat⟩
    else
      let pm := prevYM d.year d.month
      ⟨⟨pm.1, pm.2, daysInMonth pm.1 pm.2⟩, (1440 + tz).toNat⟩

/-- The ECMAScript date-time string format for date-only strings:
exactly `"YYYY-MM-DD"` with four, two and two decimal digits.  A string of
this shape denotes the UTC-midnight instant of the named day; engines
reject it (return an invalid date) when the month or the day is out of
range for the calendar.  Strings of any other shape are not covered by
this function. -/
def parseISO10 (cs : List Char) : Option JsDate :=
  match cs with
  | [c1, c2, c3, c4, '-', c5, c6, '-', c7, c8] =>
    if (c1 :: c2 :: c3 :: c4 :: c5 :: c6 :: c7 :: [c8]).all isDigitChar then
      let y : Nat := ((digitVal c1 * 10 + digitVal c2) * 10 + digitVal c3) * 10 + digitVal c4
      let m1 : Nat := digitVal c5 * 10 + digitVal c6
      let dd : Nat := digitVal c7 * 10 + digitVal c8
      if 1 ≤ m1 && m1 ≤ 12 && 1 ≤ dd && dd ≤ daysInMonth (y : Int) (m1 - 1) then
        some ⟨(y : Int), m1 - 1, dd⟩
      else none
    else none
  | _ => none

/-- The engines' fallback parse for dash-separated numeric date strings
such as `"2024-3-5"`: year, month (1-based) and day groups of decimal
digits, interpreted as local time, rejected when the month or day is out
of range.  Model boundary: other fallback formats (slash-separated,
month names, one- and two-digit-year heuristics) are not modelled. -/
def flexParseYMD (cs : List Char) : Option JsDate :=
  match splitDash cs with
  | [ys, ms, ds] =>
    if ys ≠ [] && ms ≠ [] && ds ≠ [] && (ys ++ ms ++ ds).all isDigitChar then
      let y := valDigits ys
      let m1 := valDigits ms
      let dd := valDigits ds
      if 1 ≤ m1 && m1 ≤ 12 && 1 ≤ dd && dd ≤ daysInMonth (y : Int) (m1 - 1) then
        some ⟨(y : Int), m1 - 1, dd⟩
      else none
    else none
  | _ => none

/-- JavaScript `new Date(string)` restricted to the strings this component
produces or commits: a string of the exact `"YYYY-MM-DD"` shape is
interpreted as UTC midnight and converted to local time; any other
dash-separated numeric date string is interpreted as local midnight.
`none` models the invalid-date outcome. -/
def jsNewDateStr (cs : List Char) (tz : Int) : Option DateTime :=
  match parseISO10 cs with
  | some d => some (utcToLocal d tz)
  | none => (flexParseYMD cs).map (fun d => ⟨d, 0⟩)

/-- The component's `formatDate`: local year rendered without padding,
then `-`, then 1-based month and day each `padStart(2, "0")`-padded. -/
def formatDateChars (d : JsDate) : List Char :=
  intToChars d.year ++ '-' :: padStart2 (natToChars (d.month + 1)) ++
    '-' :: padStart2 (natToChars d.day)

/-- The template literal of `onSelectDate`:
`` `${selectedYear}-${month + 1}-${dayNumber}` `` with unpadded decimal
renderings. -/
def dateExprChars (y : Int) (m : Nat) (d : Nat) : List Char :=
  intToChars y ++ '-' :: natToChars (m + 1) ++ '-' :: natToChars d

/-! ## The DatePicker component -/

/-- One cell of the 42-cell day grid (the source's `GridDay`; the optional
`dayName` field is never populated by `buildDaysGrid` and is omitted). -/
structure GridDay where
  dayNumber : Nat
  month : Nat
deriving DecidableEq, Repr

/-- The two values of the `calendarPosition` state. -/
inductive CalendarPos where
  | top
  | bottom
deriving DecidableEq, Repr

/-- The component's state hooks, gathered into one record. -/
structure PickerState where
  showCalendar : Bool
  calendarPosition : CalendarPos
  daysOfMonth : List GridDay
  selectedMonth : Nat
  selectedYear : Int
  selectedDate : DateTime
  inputValue : List Char
deriving DecidableEq, Repr

/-- The source's `getCurrentTimeFrame`: start from `new Date()` (the
current date `now`), `setMonth(selectedMonth)`, `setFullYear(selectedYear)`
and zero the time of day (the time part is dropped here because only the
civil date of the frame is ever read). -/
def getCurrentTimeFrame (now : JsDate) (selectedMonth : Nat) (selectedYear : Int) : JsDate :=
  setFullYear (setMonth now (selectedMonth : Int)) selectedYear

/-- The source's `getDaysAmountInMonth`: `new Date(year, month + 1, 1)`,
step back one day (`setDate(getDate() - 1)`, i.e. `setDate(0)`), and read
the day of the month. -/
def getDaysAmountInMonth (d : JsDate) : Nat :=
  (setDate (jsMkDate d.year ((d.month : Int) + 1) 1) 0).day

/-- The source's `getYearsSelectorArray`: `Array.from` of length
`(currentYear + 2000) - (currentYear - 2000)` starting at
`currentYear - 2000`. -/
def getYearsSelectorArray (now : JsDate) : List Int :=
  let currentYear := now.year
  let yearRangeStart := currentYear - 2000
  let yearRangeEnd := currentYear + 2000
  let rangeSize := (yearRangeEnd - yearRangeStart).toNat
  (List.range rangeSize).map (fun (i : Nat) => yearRangeStart + (i : Int))

/-- The `previousMonthLastDays` loop of `buildDaysGrid`:
`for (let i = k; i > 0; i--) push({ dayNumber: total - i + 1, month: pm })`. -/
def prevMonthLastDays (total pm : Nat) : Nat → List GridDay
  | 0 => []
  | i + 1 => ⟨total - i, pm⟩ :: prevMonthLastDays total pm i

theorem prevMonthLastDays_length (total pm k : Nat) :
    (prevMonthLastDays total pm k).length = k := by
  induction k with
  | zero => rfl
  | succ k ih => simp [prevMonthLastDays, ih]

theorem prevMonthLastDays_month (total pm k : Nat) :
    ∀ g ∈ prevMonthLastDays total pm k, g.month = pm := by
  induction k with
  | zero => simp [prevMonthLastDays]
  | succ k ih =>
    intro g hg
    simp only [prevMonthLastDays, List.mem_cons] at hg
    rcases hg with hg | hg
    · rw [hg]
    · exact ih g hg

/-- The source's `buildDaysGrid`, as a function of the current date `now`
(the seed of `getCurrentTimeFrame`) and the viewed `selectedMonth` /
`selectedYear`.  It returns the grid that the handler stores in
`daysOfMonth`. -/
def buildDaysGrid (now : JsDate) (selectedMonth : Nat) (selectedYear : Int) : List GridDay :=
  let frame := getCurrentTimeFrame now selectedMonth selectedYear
  let previousMonth := setMonth frame ((frame.month : Int) - 1)
  let previousMonthDaysAmount := getDaysAmountInMonth previousMonth
  let firstOfMonth := setDate frame 1
  let currentMonthDaysAmount := getDaysAmountInMonth frame
  let dbm0 : Int := (getDay firstOfMonth : Int) - 1
  let daysBeforeMonday : Nat := if dbm0 < 0 then 6 else dbm0.toNat
  let previousMonthLastDaysList :=
    prevMonthLastDays previousMonthDaysAmount previousMonth.month daysBeforeMonday
  let daysGrid := previousMonthLastDaysList ++
    (List.range currentMonthDaysAmount).map (fun i => ⟨i + 1, firstOfMonth.month⟩)
  let nextMonth := setMonth frame ((frame.month : Int) + 1)
  let remainingDays := 42 - daysGrid.length
  daysGrid ++ (List.range remainingDays).map (fun i => ⟨i + 1, nextMonth.month⟩)

/-- The source's `onSelectDate`: build
`new Date(`${selectedYear}-${month + 1}-${dayNumber}`)`, zero the time of
day, store it as the selected date, mirror it into the input, emit it
through `onChange`, and close the calendar.  `none` models the
invalid-date outcome of the string constructor (unreachable for grid
cells). -/
def onSelectDate (tz : Int) (gd : GridDay) (st : PickerState) :
    Option (PickerState × Option (List Char)) :=
  match jsNewDateStr (dateExprChars st.selectedYear gd.month gd.dayNumber) tz with
  | none => none
  | some dt =>
    let d0 : DateTime := ⟨dt.date, 0⟩
    some ({ st with
              selectedDate := d0
              inputValue := formatDateChars d0.date
              showCalendar := false },
          some (formatDateChars d0.date))

/-- The source's `handleManualDateChange`: every keystroke updates
`inputValue`; exactly when the new text has 10 characters, try
`new Date(text)`; an invalid date returns early (the `isNaN` guard — the
`try`/`catch` can never fire because the constructor does not throw on
strings); a valid one updates year, month and the selected date and emits
the reformatted value.  The second component is the emitted `onChange`
argument, `none` when the callback is not invoked. -/
def handleManualDateChange (tz : Int) (cs : List Char) (st : PickerState) :
    PickerState × Option (List Char) :=
  let st1 := { st with inputValue := cs }
  if cs.length = 10 then
    match jsNewDateStr cs tz with
    | none => (st1, none)
    | some dt =>
      ({ st1 with
           selectedYear := dt.date.year
           selectedMonth := dt.date.month
           selectedDate := dt },
       some (formatDateChars dt.date))
  else (st1, none)

/-- Mount initialisation: `selectedMonth` / `selectedYear` come from
`getNow()` (today, time zeroed), `selectedDate` from `new Date(value)`
when a `value` prop is present and from `new Date()` (today with the
current wall-clock time) otherwise, `inputValue` from
`formatDate(selectedDate)`, and the mount effect builds the grid.  `none`
models an unparseable non-empty `value` prop (outside the stated
"YYYY-MM-DD" contract). -/
def initState (value : List Char) (now : DateTime) (tz : Int) : Option PickerState :=
  let sd? : Option DateTime := if value = [] then some now else jsNewDateStr value tz
  match sd? with
  | none => none
  | some sd =>
    some { showCalendar := false
           calendarPosition := CalendarPos.top
           daysOfMonth := buildDaysGrid now.date now.date.month now.date.year
           selectedMonth := now.date.month
           selectedYear := now.date.year
           selectedDate := sd
           inputValue := formatDateChars sd.date }

/-- The user-visible events of the widget: a grid-cell click, a keystroke
in the input (with the input's new text), a month or year selector change,
a click on the input field (with its measured top offset), and a click
outside (with whether it hit the modal or the triggering input). -/
inductive PickerEvent where
  | selectCell (gd : GridDay)
  | manualInput (cs : List Char)
  | monthSelect (m : Nat)
  | yearSelect (y : Int)
  | inputClick (topOffset : Int)
  | outsideClick (insideModal : Bool) (isInputTarget : Bool)
deriving DecidableEq, Repr

/-- One step of the presentation state machine: dispatch an event to its
handler.  The result pairs the next state with the argument passed to the
external `onChange` callback (`none` when it is not invoked); `none`
overall models the invalid-date boundary of `onSelectDate`.  Month and
year selector changes re-run the grid-building effect (its dependencies
are `[selectedMonth, selectedYear]`), as does a manual commit that moves
them; `positionModal` compares the input's top offset against the
300-pixel safe space; an outside click that hits neither the modal nor the
input closes the calendar. -/
def step (now : JsDate) (tz : Int) (ev : PickerEvent) (st : PickerState) :
    Option (PickerState × Option (List Char)) :=
  match ev with
  | .selectCell gd => onSelectDate tz gd st
  | .manualInput cs =>
    let r := handleManualDateChange tz cs st
    let st1 := r.1
    if st1.selectedMonth = st.selectedMonth ∧ st1.selectedYear = st.selectedYear then
      some (st1, r.2)
    else
      some ({ st1 with daysOfMonth := buildDaysGrid now st1.selectedMonth st1.selectedYear },
            r.2)
  | .monthSelect m =>
    some ({ st with selectedMonth := m, daysOfMonth := buildDaysGrid now m st.selectedYear },
          none)
  | .yearSelect y =>
    some ({ st with selectedYear := y, daysOfMonth := buildDaysGrid now st.selectedMonth y },
          none)
  | .inputClick topOffset =>
    some ({ st with
              calendarPosition := if 300 ≤ topOffset then CalendarPos.top else CalendarPos.bottom
              showCalendar := !st.showCalendar },
          none)
  | .outsideClick insideModal isInputTarget =>
    if insideModal || isInputTarget then some (st, none)
    else some ({ st with showCalendar := false }, none)

/-! ## Claim statements at concrete instances, and reference fixtures -/

/-- Offset of a week day from Monday in a Monday-start week:
`getDay` Sunday (0) sits 6 cells in, Monday (1) 0 cells, …, Saturday (5)
cells.  This is the leading-cells count the specification describes. -/
abbrev mondayIndex (w : Nat) : Nat := if w = 0 then 6 else w - 1

/-- The grid property claimed for a viewed month: 42 cells, and the cell
for day 1 of the viewed month sits at the offset given by the weekday of
the 1st (a value in 0..6), preceded only by cells tagged with the
previous month's index. -/
abbrev gridClaimAt (now : JsDate) (sm : Nat) (sy : Int) : Prop :=
  let g := buildDaysGrid now sm sy
  let off := mondayIndex (getDay ⟨sy, sm, 1⟩)
  g.length = 42 ∧ off ≤ 6 ∧ g[off]? = some ⟨1, sm⟩ ∧
    (g.take off).all (fun c => c.month == (sm + 11) % 12) = true

/-- The selection property claimed for a grid cell: the commit resolves
the date from the cell's own month and day number together with the viewed
year, and closes the calendar overlay. -/
abbrev selectClaimAt (tz : Int) (gd : GridDay) (st : PickerState) : Prop :=
  (onSelectDate tz gd st).map (fun p => (p.1.selectedDate.date, p.1.showCalendar)) =
    some (⟨st.selectedYear, gd.month, gd.dayNumber⟩, false)

/-- Does a string have the zero-padded `"YYYY-MM-DD"` shape: exactly four
digits, a dash, two digits, a dash, two digits? -/
abbrev isPaddedYMD (cs : List Char) : Bool :=
  match cs with
  | [a, b, c, d, '-', e, f, '-', g, h] =>
    (a :: b :: c :: d :: e :: f :: g :: [h]).all isDigitChar
  | _ => false

/-- A reference current date (January 15, 2024) for concrete scenarios. -/
def now0 : JsDate := ⟨2024, 0, 15⟩

/-- A concrete open-calendar state viewing March 2024. -/
def stMarch2024 : PickerState :=
  ⟨true, CalendarPos.top, [], 2, 2024, ⟨⟨2024, 2, 1⟩, 0⟩, []⟩

/-- A concrete open-calendar state whose viewed year is 567 (a year the
year selector offers when the current year is 2024). -/
def stY567 : PickerState :=
  ⟨true, CalendarPos.top, [], 2, 567, ⟨⟨567, 2, 1⟩, 0⟩, []⟩

/-- The March-2024 grid property claimed by the specification's concrete
scenario: the grid (built while viewing March 2024) starts with exactly
the three cells 27, 28, 29 tagged with February's index, followed by a
March cell, for 42 cells in total. -/
abbrev c9ClaimProp (now : JsDate) : Prop :=
  let g := buildDaysGrid now 2 2024
  g.take 3 = [⟨27, 1⟩, ⟨28, 1⟩, ⟨29, 1⟩] ∧
    (g[3]?).map GridDay.month = some 2 ∧ g.length = 42

/-! ## Closed theorems: counterexamples and concrete evaluations -/

/-- Claim C1, counterexample.  With the current date January 31, 2024 as
the seed and February 2024 (month index 1) viewed, `buildDaysGrid` does
not satisfy the claimed property: `setMonth(1)` on a `Date` holding day 31
overflows February into March, so the grid produced is March's; the cell
for day 1 of February does not appear at the offset given by February 1's
weekday (position 3 holds the February-29 cell), refuting the claim's
quantification over every possible current date. -/
theorem buildDaysGrid_seed_overflow_counterexample :
    ¬ gridClaimAt ⟨2024, 0, 31⟩ 1 2024 := by decide

/-- Claim C9, counterexample.  Viewing March 2024 (with the benign current
date March 15, 2024), the grid does not begin with the three cells
27, 28, 29 of February: March 1, 2024 is a Friday, so there are four
leading February cells and the grid begins with 26. -/
theorem marchGrid_counterexample : ¬ c9ClaimProp ⟨2024, 2, 15⟩ := by decide

/-- Claim C9, amended.  Viewing March 2024 (current date March 15, 2024),
the grid is exactly: the last four days 26, 27, 28, 29 of February 2024
tagged with February's index, then all 31 days of March tagged with
March's index, then the first 7 days of April tagged with April's index,
42 cells in total. -/
theorem marchGrid_eq :
    buildDaysGrid ⟨2024, 2, 15⟩ 2 2024 =
      [⟨26, 1⟩, ⟨27, 1⟩, ⟨28, 1⟩, ⟨29, 1⟩] ++
        (List.range 31).map (fun i => ⟨i + 1, 2⟩) ++
        (List.range 7).map (fun i => ⟨i + 1, 3⟩) := by decide

/-- Claim C7, evaluation at the failing input.  Mounting the widget with
an empty `value` prop at wall-clock time 14:34 (874 minutes after
midnight) stores a `selectedDate` whose time of day is 14:34, not
00:00:00: the initialiser uses `new Date()` without zeroing the time. -/
theorem initState_keeps_wall_clock_time :
    (initState [] ⟨⟨2026, 9, 11⟩, 874⟩ 0).map (fun s => s.selectedDate.time) =
      some 874 ∧ (874 : Nat) ≠ 0 := by decide

/-- Claim C3, counterexample.  In an environment at UTC-05:00
(`tz = -300`), selecting the cell for December 25 while viewing 2024
produces the string `"2024-12-25"`, which `new Date` reads as UTC
midnight; the local civil date is December 24, so the committed date's day
is not the cell's day number. -/
theorem onSelectDate_utc_shift_counterexample :
    ¬ selectClaimAt (-300) ⟨25, 11⟩ stMarch2024 := by decide

/-- Claim C2, counterexample.  The 10-character ISO string
`"0123-04-05"` (a valid date of year 123) parses successfully, but the
commit reformats it without the year's leading zero — `formatDate` pads
month and day but not the year — so `onChange` receives `"123-04-05"`,
not the identical string. -/
theorem manualChange_year_pad_counterexample :
    (handleManualDateChange 0 ("0123-04-05".data) stMarch2024).2 =
        some ("123-04-05".data) ∧
      ("123-04-05".data) ≠ ("0123-04-05".data) := by decide

set_option maxRecDepth 9000 in
/-- Claim C6, counterexample.  Year 567 is offered by the year selector
(current year 2024), and committing the March 5 cell while viewing year
567 emits `"567-03-05"`, whose year field has three digits, not four:
`formatDate` does not pad the year. -/
theorem onSelectDate_short_year_counterexample :
    (567 : Int) ∈ getYearsSelectorArray now0 ∧
      (onSelectDate 0 ⟨5, 2⟩ stY567).map (fun p => p.2.map isPaddedYMD) =
        some (some false) := by decide

/-! ## The manual-entry handler: error path and frame condition -/

/-- Claim C5.  For every input string whose length is not 10, the manual
handler neither parses nor commits: the resulting state is the old state
with only `inputValue` replaced, and the `onChange` callback is not
invoked. -/
theorem handleManualDateChange_short (tz : Int) (st : PickerState) (cs : List Char)
    (h : cs.length ≠ 10) :
    handleManualDateChange tz cs st = ({ st with inputValue := cs }, none) := by
  unfold handleManualDateChange
  simp [h]

/-- Claim C5, witness at the 6-character input `"2024-1"`. -/
theorem handleManualDateChange_short_witness :
    ("2024-1".data).length ≠ 10 ∧
      handleManualDateChange 0 ("2024-1".data) stMarch2024 =
        ({ stMarch2024 with inputValue := "2024-1".data }, none) :=
  ⟨by decide, handleManualDateChange_short 0 stMarch2024 ("2024-1".data) (by decide)⟩

/-- Claim C4.  For every 10-character string on which the date constructor
yields an invalid date, the manual handler leaves `selectedDate`,
`selectedMonth` and `selectedYear` untouched, keeps only the raw text in
`inputValue`, and does not invoke `onChange`; the handler is a total
function, so no exception reaches the caller (the `isNaN` guard returns
first — `new Date(string)` never throws). -/
theorem handleManualDateChange_invalid (tz : Int) (st : PickerState) (cs : List Char)
    (hlen : cs.length = 10) (hp : jsNewDateStr cs tz = none) :
    handleManualDateChange tz cs st = ({ st with inputValue := cs }, none) := by
  unfold handleManualDateChange
  simp [hlen, hp]

/-- Claim C4, witness at the invalid-month input `"2024-13-01"`. -/
theorem handleManualDateChange_invalid_witness :
    ("2024-13-01".data).length = 10 ∧
      jsNewDateStr ("2024-13-01".data) 0 = none ∧
      handleManualDateChange 0 ("2024-13-01".data) stMarch2024 =
        ({ stMarch2024 with inputValue := "2024-13-01".data }, none) :=
  ⟨by decide, by decide,
    handleManualDateChange_invalid 0 stMarch2024 ("2024-13-01".data) (by decide) (by decide)⟩

/-! ## The year selector -/

/-- Claim C10.  For every current year, the selector array has exactly
4000 entries; entry `i` is `year - 2000 + i` (so the entries are
consecutive and increasing, from `year - 2000` up to `year + 1999`), and
`year + 2000` is not among them. -/
theorem getYearsSelectorArray_spec (now : JsDate) :
    (getYearsSelectorArray now).length = 4000 ∧
      (∀ i : Nat, i < 4000 →
        (getYearsSelectorArray now)[i]? = some (now.year - 2000 + (i : Int))) ∧
      now.year + 2000 ∉ getYearsSelectorArray now := by
  have hsize : (now.year + 2000) - (now.year - 2000) = 4000 := by ring
  have harr : getYearsSelectorArray now =
      (List.range 4000).map (fun (i : Nat) => now.year - 2000 + (i : Int)) := by
    simp only [getYearsSelectorArray]
    rw [hsize]
    rfl
  refine ⟨?_, ?_, ?_⟩
  · rw [harr]
    simp
  · intro i hi
    rw [harr, List.getElem?_map, List.getElem?_range hi]
    rfl
  · rw [harr]
    simp only [List.mem_map, List.mem_range]
    rintro ⟨i, hi, hey⟩
    omega

/-- Claim C10, witness at the current date `now0` (year 2024): length
4000 and the first and last entries, obtained from the theorem. -/
theorem getYearsSelectorArray_spec_witness :
    (getYearsSelectorArray now0).length = 4000 ∧
      (getYearsSelectorArray now0)[0]? = some 24 ∧
      (getYearsSelectorArray now0)[3999]? = some 4023 := by
  refine ⟨(getYearsSelectorArray_spec now0).1, ?_, ?_⟩
  · have h := (getYearsSelectorArray_spec now0).2.1 0 (by omega)
    rw [h]
    rfl
  · have h := (getYearsSelectorArray_spec now0).2.1 3999 (by omega)
    rw [h]
    rfl

/-! ## Canonical digit renderings of two- and four-digit numbers -/

theorem natToChars_two_digit (n : Nat) (h1 : 10 ≤ n) (h2 : n ≤ 99) :
    natToChars n = [digitChar (n / 10), digitChar (n % 10)] := by
  have h := natToChars_two (n / 10) (n % 10) (by omega) (by omega) (by omega)
  have hn : n / 10 * 10 + n % 10 = n := by omega
  rw [hn] at h
  exact h

theorem natToChars_four_digit (n : Nat) (h1 : 1000 ≤ n) (h2 : n ≤ 9999) :
    natToChars n =
      [digitChar (n / 1000), digitChar (n / 100 % 10),
       digitChar (n / 10 % 10), digitChar (n % 10)] := by
  have h := natToChars_four (n / 1000) (n / 100 % 10) (n / 10 % 10) (n % 10)
    (by omega) (by omega) (by omega) (by omega) (by omega)
  have hn : ((n / 1000 * 10 + n / 100 % 10) * 10 + n / 10 % 10) * 10 + n % 10 = n := by
    omega
  rw [hn] at h
  exact h

theorem padStart2_natToChars (n : Nat) (h : n ≤ 99) :
    padStart2 (natToChars n) = [digitChar (n / 10), digitChar (n % 10)] := by
  by_cases h10 : n < 10
  · rw [natToChars_lt n h10]
    have hd : n / 10 = 0 := by omega
    have hm : n % 10 = n := by omega
    rw [hd, hm]
    rfl
  · rw [natToChars_two_digit n (by omega) h]
    rfl

theorem natToChars_length_lt (n : Nat) (h : n < 10) : (natToChars n).length = 1 := by
  rw [natToChars_lt n h]
  rfl

theorem natToChars_length_two (n : Nat) (h1 : 10 ≤ n) (h2 : n ≤ 99) :
    (natToChars n).length = 2 := by
  rw [natToChars_two_digit n h1 h2]
  rfl

theorem parseISO10_some_length (cs : List Char) (d : JsDate)
    (hp : parseISO10 cs = some d) : cs.length = 10 := by
  unfold parseISO10 at hp
  split at hp
  · simp_all
  · exact absurd hp (by simp)

/-! ## The manual-entry round trip -/

/-- Reformatting the date parsed from a well-formed `"YYYY-MM-DD"` string
whose year is at least 1000 yields the identical string: the year then
has exactly four digits, so the unpadded year rendering matches, and the
padded month and day renderings reproduce their two-digit fields. -/
theorem formatDateChars_parseISO10 (cs : List Char) (d : JsDate)
    (hp : parseISO10 cs = some d) (hy : 1000 ≤ d.year) :
    formatDateChars d = cs := by
  unfold parseISO10 at hp
  split at hp
  · rename_i c1 c2 c3 c4 c5 c6 c7 c8
    split at hp
    · rename_i hdig
      simp only [] at hp
      split at hp
      · rename_i hcond
        injection hp with hp
        subst hp
        simp only [List.all_cons, List.all_nil, Bool.and_eq_true, and_true] at hdig
        obtain ⟨h1, h2, h3, h4, h5, h6, h7, h8⟩ := hdig
        simp only [decide_eq_true_eq, Bool.and_eq_true] at hcond
        obtain ⟨⟨⟨hm1, hm12⟩, hdd1⟩, hdd2⟩ := hcond
        have v1 := digitVal_lt h1
        have v2 := digitVal_lt h2
        have v3 := digitVal_lt h3
        have v4 := digitVal_lt h4
        have v5 := digitVal_lt h5
        have v6 := digitVal_lt h6
        have v7 := digitVal_lt h7
        have v8 := digitVal_lt h8
        replace hy : (1000 : Int) ≤
            ((((digitVal c1 * 10 + digitVal c2) * 10 + digitVal c3) * 10 +
              digitVal c4 : Nat) : Int) := hy
        have hyN : 1000 ≤
            ((digitVal c1 * 10 + digitVal c2) * 10 + digitVal c3) * 10 + digitVal c4 := by
          exact_mod_cast hy
        simp only [formatDateChars, intToChars]
        rw [if_neg (by omega : ¬((((digitVal c1 * 10 + digitVal c2) * 10 + digitVal c3) * 10 +
          digitVal c4 : Nat) : Int) < 0)]
        rw [Int.toNat_natCast]
        rw [natToChars_four_digit _ hyN (by omega)]
        rw [(by omega : (((digitVal c1 * 10 + digitVal c2) * 10 + digitVal c3) * 10 +
          digitVal c4) / 1000 = digitVal c1)]
        rw [(by omega : (((digitVal c1 * 10 + digitVal c2) * 10 + digitVal c3) * 10 +
          digitVal c4) / 100 % 10 = digitVal c2)]
        rw [(by omega : (((digitVal c1 * 10 + digitVal c2) * 10 + digitVal c3) * 10 +
          digitVal c4) / 10 % 10 = digitVal c3)]
        rw [(by omega : (((digitVal c1 * 10 + digitVal c2) * 10 + digitVal c3) * 10 +
          digitVal c4) % 10 = digitVal c4)]
        rw [(by omega : digitVal c5 * 10 + digitVal c6 - 1 + 1 = digitVal c5 * 10 + digitVal c6)]
        rw [padStart2_natToChars (digitVal c5 * 10 + digitVal c6) (by omega)]
        rw [(by omega : (digitVal c5 * 10 + digitVal c6) / 10 = digitVal c5)]
        rw [(by omega : (digitVal c5 * 10 + digitVal c6) % 10 = digitVal c6)]
        rw [padStart2_natToChars (digitVal c7 * 10 + digitVal c8) (by omega)]
        rw [(by omega : (digitVal c7 * 10 + digitVal c8) / 10 = digitVal c7)]
        rw [(by omega : (digitVal c7 * 10 + digitVal c8) % 10 = digitVal c8)]
        rw [digitChar_digitVal h1, digitChar_digitVal h2, digitChar_digitVal h3,
          digitChar_digitVal h4, digitChar_digitVal h5, digitChar_digitVal h6,
          digitChar_digitVal h7, digitChar_digitVal h8]
        rfl
      · exact absurd hp (by simp)
    · exact absurd hp (by simp)
  · exact absurd hp (by simp)

/-- Claim C2, amended.  For every well-formed `"YYYY-MM-DD"` string whose
year is between 1000 and 9999 (four significant digits), in an environment
whose UTC offset is non-negative (and below a day), the manual handler
parses it and invokes `onChange` with the identical string: the committed
state holds the parsed date (local time of day equal to the UTC offset)
and the emission is the input itself. -/
theorem handleManualDateChange_roundtrip (tz : Int) (st : PickerState) (cs : List Char)
    (d : JsDate) (htz0 : 0 ≤ tz) (_htz1 : tz < 1440)
    (hp : parseISO10 cs = some d) (hy : 1000 ≤ d.year) :
    handleManualDateChange tz cs st =
      ({ st with
           inputValue := cs
           selectedYear := d.year
           selectedMonth := d.month
           selectedDate := ⟨d, tz.toNat⟩ },
        some cs) := by
  have hlen := parseISO10_some_length cs d hp
  have hfmt := formatDateChars_parseISO10 cs d hp hy
  have hjs : jsNewDateStr cs tz = some ⟨d, tz.toNat⟩ := by
    unfold jsNewDateStr
    rw [hp]
    show some (utcToLocal d tz) = _
    unfold utcToLocal
    rw [if_pos htz0]
  unfold handleManualDateChange
  rw [if_pos hlen, hjs]
  show ({ st with
            inputValue := cs
            selectedYear := d.year
            selectedMonth := d.month
            selectedDate := ⟨d, tz.toNat⟩ },
        some (formatDateChars d)) = _
  rw [hfmt]

/-- Claim C2, witness at `"2024-03-01"` in a UTC environment. -/
theorem handleManualDateChange_roundtrip_witness :
    handleManualDateChange 0 ("2024-03-01".data) stMarch2024 =
      ({ stMarch2024 with
           inputValue := "2024-03-01".data
           selectedYear := 2024
           selectedMonth := 2
           selectedDate := ⟨⟨2024, 2, 1⟩, 0⟩ },
        some ("2024-03-01".data)) :=
  handleManualDateChange_roundtrip 0 stMarch2024 ("2024-03-01".data) ⟨2024, 2, 1⟩
    (by decide) (by decide) (by decide) (by decide)

theorem parseISO10_of_digits (A B C D E F G H : Nat)
    (hA : A < 10) (hB : B < 10) (hC : C < 10) (hD : D < 10)
    (hE : E < 10) (hF : F < 10) (hG : G < 10) (hH : H < 10)
    (hm1 : 1 ≤ E * 10 + F) (hm2 : E * 10 + F ≤ 12)
    (hdd1 : 1 ≤ G * 10 + H)
    (hdd2 : G * 10 + H ≤ daysInMonth (((A * 10 + B) * 10 + C) * 10 + D : Nat) (E * 10 + F - 1)) :
    parseISO10 [digitChar A, digitChar B, digitChar C, digitChar D, '-',
        digitChar E, digitChar F, '-', digitChar G, digitChar H] =
      some ⟨(((A * 10 + B) * 10 + C) * 10 + D : Nat), E * 10 + F - 1, G * 10 + H⟩ := by
  simp only [parseISO10]
  have hall : ([digitChar A, digitChar B, digitChar C, digitChar D, digitChar E, digitChar F,
      digitChar G, digitChar H]).all isDigitChar = true := by
    simp [isDigitChar_digitChar A hA, isDigitChar_digitChar B hB, isDigitChar_digitChar C hC,
      isDigitChar_digitChar D hD, isDigitChar_digitChar E hE, isDigitChar_digitChar F hF,
      isDigitChar_digitChar G hG, isDigitChar_digitChar H hH]
  rw [if_pos hall]
  simp only [digitVal_digitChar A hA, digitVal_digitChar B hB, digitVal_digitChar C hC,
    digitVal_digitChar D hD, digitVal_digitChar E hE, digitVal_digitChar F hF,
    digitVal_digitChar G hG, digitVal_digitChar H hH]
  rw [if_pos]
  simp only [decide_eq_true_eq, Bool.and_eq_true]
  exact ⟨⟨⟨hm1, hm2⟩, hdd1⟩, hdd2⟩

theorem natToChars_ge (n : Nat) (h : 10 ≤ n) :
    natToChars n = natToChars (n / 10) ++ [digitChar (n % 10)] := by
  simp [natToChars, natDigitsRev_ge n h]

theorem natToChars_all_digits (n : Nat) : ∀ c ∈ natToChars n, isDigitChar c = true := by
  induction n using Nat.strong_induction_on with
  | _ n ih =>
    by_cases h : n < 10
    · rw [natToChars_lt n h]
      intro c hc
      simp only [List.mem_singleton] at hc
      subst hc
      exact isDigitChar_digitChar n h
    · rw [natToChars_ge n (by omega)]
      intro c hc
      rcases List.mem_append.mp hc with hc | hc
      · exact ih (n / 10) (Nat.div_lt_self (by omega) (by omega)) c hc
      · simp only [List.mem_singleton] at hc
        subst hc
        exact isDigitChar_digitChar _ (by omega)

theorem natToChars_no_dash (n : Nat) : ∀ c ∈ natToChars n, c ≠ '-' :=
  fun c hc => isDigitChar_ne_dash (natToChars_all_digits n c hc)

theorem natToChars_ne_nil (n : Nat) : natToChars n ≠ [] := by
  by_cases h : n < 10
  · rw [natToChars_lt n h]
    simp
  · rw [natToChars_ge n (by omega)]
    simp

theorem valDigits_append_one (xs : List Char) (c : Char) :
    valDigits (xs ++ [c]) = valDigits xs * 10 + digitVal c := by
  simp [valDigits, List.foldl_append]

theorem valDigits_natToChars (n : Nat) : valDigits (natToChars n) = n := by
  induction n using Nat.strong_induction_on with
  | _ n ih =>
    by_cases h : n < 10
    · rw [natToChars_lt n h]
      simp [valDigits, digitVal_digitChar n h]
    · rw [natToChars_ge n (by omega), valDigits_append_one,
        ih (n / 10) (Nat.div_lt_self (by omega) (by omega)),
        digitVal_digitChar _ (by omega)]
      omega

/-- The string `` `${y}-${m + 1}-${dnum}` `` built by `onSelectDate`
always parses back to the civil date (y, m, dnum) when the offset is
non-negative: with a two-digit month and day it has the 10-character ISO
shape and goes through the UTC parse; otherwise it goes through the local
fallback parse. -/
theorem jsNewDateStr_dateExpr (y : Int) (m dnum : Nat) (tz : Int)
    (hy1 : 1000 ≤ y) (hy2 : y ≤ 9999) (hm : m < 12)
    (hd1 : 1 ≤ dnum) (hd2 : dnum ≤ daysInMonth y m) (htz0 : 0 ≤ tz) :
    ∃ t : Nat, jsNewDateStr (dateExprChars y m dnum) tz = some ⟨⟨y, m, dnum⟩, t⟩ := by
  have hy0 : (0 : Int) ≤ y := by omega
  have hyy : ((y.toNat : Nat) : Int) = y := Int.toNat_of_nonneg hy0
  have hyN1 : 1000 ≤ y.toNat := by omega
  have hyN2 : y.toNat ≤ 9999 := by omega
  have hdle : daysInMonth y m ≤ 31 := daysInMonth_le y m
  have hexpr : dateExprChars y m dnum =
      natToChars y.toNat ++ '-' :: natToChars (m + 1) ++ '-' :: natToChars dnum := by
    unfold dateExprChars intToChars
    rw [if_neg (by omega : ¬ y < 0)]
  have hyc := natToChars_four_digit y.toNat hyN1 hyN2
  by_cases hcase : 9 ≤ m ∧ 10 ≤ dnum
  · -- both fields have two digits: the rendered string has the ISO shape
    obtain ⟨hm9, hd10⟩ := hcase
    have hmc := natToChars_two_digit (m + 1) (by omega) (by omega)
    have hdc := natToChars_two_digit dnum (by omega) (by omega)
    have hpi : parseISO10 (dateExprChars y m dnum) = some ⟨y, m, dnum⟩ := by
      rw [hexpr, hyc, hmc, hdc]
      simp only [List.cons_append, List.nil_append]
      rw [parseISO10_of_digits (y.toNat / 1000) (y.toNat / 100 % 10) (y.toNat / 10 % 10)
        (y.toNat % 10) ((m + 1) / 10) ((m + 1) % 10) (dnum / 10) (dnum % 10)
        (by omega) (by omega) (by omega) (by omega) (by omega) (by omega) (by omega) (by omega)
        (by omega) (by omega) (by omega) ?hdd]
      case hdd =>
        have hc1 : ((y.toNat / 1000 * 10 + y.toNat / 100 % 10) * 10 + y.toNat / 10 % 10) * 10 +
            y.toNat % 10 = y.toNat := by omega
        have hc2 : (m + 1) / 10 * 10 + (m + 1) % 10 - 1 = m := by omega
        rw [hc1, hc2, hyy]
        have hc3 : dnum / 10 * 10 + dnum % 10 = dnum := by omega
        rw [hc3]
        exact hd2
      have hc1 : ((y.toNat / 1000 * 10 + y.toNat / 100 % 10) * 10 + y.toNat / 10 % 10) * 10 +
          y.toNat % 10 = y.toNat := by omega
      have hc2 : (m + 1) / 10 * 10 + (m + 1) % 10 - 1 = m := by omega
      have hc3 : dnum / 10 * 10 + dnum % 10 = dnum := by omega
      rw [hc1, hc2, hc3, hyy]
    refine ⟨tz.toNat, ?_⟩
    unfold jsNewDateStr
    rw [hpi]
    show some (utcToLocal ⟨y, m, dnum⟩ tz) = _
    unfold utcToLocal
    rw [if_pos htz0]
  · -- at least one field is a single digit: not the ISO shape, fallback parse
    have hylen : (natToChars y.toNat).length = 4 := by rw [hyc]; rfl
    have hlen : (dateExprChars y m dnum).length ≠ 10 := by
      rw [hexpr]
      rcases Nat.lt_or_ge m 9 with hm9 | hm9
      · have hml : (natToChars (m + 1)).length = 1 := natToChars_length_lt _ (by omega)
        rcases Nat.lt_or_ge dnum 10 with hd10 | hd10
        · have hdl : (natToChars dnum).length = 1 := natToChars_length_lt _ hd10
          simp [hylen, hml, hdl]
        · have hdl : (natToChars dnum).length = 2 := natToChars_length_two _ hd10 (by omega)
          simp [hylen, hml, hdl]
      · have hd10 : dnum < 10 := by omega
        have hml : (natToChars (m + 1)).length = 2 := natToChars_length_two _ (by omega) (by omega)
        have hdl : (natToChars dnum).length = 1 := natToChars_length_lt _ hd10
        simp [hylen, hml, hdl]
    have hpn : parseISO10 (dateExprChars y m dnum) = none := by
      cases hpp : parseISO10 (dateExprChars y m dnum) with
      | none => rfl
      | some dx => exact absurd (parseISO10_some_length _ dx hpp) hlen
    have hsplit : splitDash (natToChars y.toNat ++ '-' :: natToChars (m + 1) ++
        '-' :: natToChars dnum) =
        [natToChars y.toNat, natToChars (m + 1), natToChars dnum] := by
      rw [List.append_assoc, List.cons_append]
      rw [splitDash_append (natToChars y.toNat)
          (natToChars (m + 1) ++ '-' :: natToChars dnum) (natToChars_no_dash _)]
      rw [splitDash_append (natToChars (m + 1)) (natToChars dnum) (natToChars_no_dash _)]
      rw [splitDash_dashfree (natToChars dnum) (natToChars_no_dash _)]
    have hflex : flexParseYMD (dateExprChars y m dnum) = some ⟨y, m, dnum⟩ := by
      rw [hexpr]
      simp only [flexParseYMD, hsplit]
      rw [if_pos]
      · rw [valDigits_natToChars, valDigits_natToChars, valDigits_natToChars]
        rw [if_pos]
        · rw [Nat.add_sub_cancel, hyy]
        · simp only [decide_eq_true_eq, Bool.and_eq_true]
          refine ⟨⟨⟨by omega, by omega⟩, hd1⟩, ?_⟩
          rw [Nat.add_sub_cancel, hyy]
          exact hd2
      · simp only [Bool.and_eq_true, decide_eq_true_eq, List.all_append, List.all_eq_true]
        refine ⟨⟨⟨natToChars_ne_nil _, natToChars_ne_nil _⟩, natToChars_ne_nil _⟩,
          ⟨natToChars_all_digits _, natToChars_all_digits _⟩, natToChars_all_digits _⟩
    refine ⟨0, ?_⟩
    unfold jsNewDateStr
    rw [hpn]
    show (flexParseYMD (dateExprChars y m dnum)).map _ = _
    rw [hflex]
    rfl

/-- A grid-cell commit, in full: under the stated bounds the constructed
date string parses back to exactly (viewed year, cell month, cell day) —
through the ISO path when month and day both render with two digits, and
through the fallback path otherwise — the time is zeroed, the formatted
date is mirrored into the input and emitted, and the calendar closes. -/
theorem onSelectDate_commit (tz : Int) (st : PickerState) (gd : GridDay)
    (htz0 : 0 ≤ tz) (hy1 : 1000 ≤ st.selectedYear) (hy2 : st.selectedYear ≤ 9999)
    (hm : gd.month < 12) (hd1 : 1 ≤ gd.dayNumber)
    (hd2 : gd.dayNumber ≤ daysInMonth st.selectedYear gd.month) :
    onSelectDate tz gd st =
      some ({ st with
                selectedDate := ⟨⟨st.selectedYear, gd.month, gd.dayNumber⟩, 0⟩
                inputValue := formatDateChars ⟨st.selectedYear, gd.month, gd.dayNumber⟩
                showCalendar := false },
            some (formatDateChars ⟨st.selectedYear, gd.month, gd.dayNumber⟩)) := by
  obtain ⟨t, hjs⟩ :=
    jsNewDateStr_dateExpr st.selectedYear gd.month gd.dayNumber tz hy1 hy2 hm hd1 hd2 htz0
  unfold onSelectDate
  rw [hjs]

/-- Claim C3, amended.  In an environment whose UTC offset is non-negative
(below a day), selecting any grid cell with a valid month index and day
number while viewing a four-digit year commits the date resolved from the
cell's own month and day number together with the viewed `selectedYear`,
and closes the overlay.  (With a negative offset, a cell whose rendered
month and day are both two digits parses as UTC midnight and commits the
previous local day.) -/
theorem onSelectDate_resolves_cell (tz : Int) (st : PickerState) (gd : GridDay)
    (htz0 : 0 ≤ tz) (_htz1 : tz < 1440)
    (hy1 : 1000 ≤ st.selectedYear) (hy2 : st.selectedYear ≤ 9999)
    (hm : gd.month < 12) (hd1 : 1 ≤ gd.dayNumber)
    (hd2 : gd.dayNumber ≤ daysInMonth st.selectedYear gd.month) :
    selectClaimAt tz gd st := by
  show (onSelectDate tz gd st).map _ = _
  rw [onSelectDate_commit tz st gd htz0 hy1 hy2 hm hd1 hd2]
  rfl

/-- Claim C3, witness: the December 25 cell viewed in 2024, UTC. -/
theorem onSelectDate_resolves_cell_witness :
    selectClaimAt 0 ⟨25, 11⟩ stMarch2024 :=
  onSelectDate_resolves_cell 0 stMarch2024 ⟨25, 11⟩ (by decide) (by decide) (by decide)
    (by decide) (by decide) (by decide) (by decide)

theorem isPaddedYMD_formatDateChars (y : Int) (m dnum : Nat)
    (hy1 : 1000 ≤ y) (hy2 : y ≤ 9999) (hm : m < 12) (hd1 : 1 ≤ dnum) (hd2 : dnum ≤ 31) :
    isPaddedYMD (formatDateChars ⟨y, m, dnum⟩) = true := by
  have hy0 : ¬ y < 0 := by omega
  have hyN1 : 1000 ≤ y.toNat := by omega
  have hyN2 : y.toNat ≤ 9999 := by omega
  unfold formatDateChars intToChars
  rw [if_neg hy0]
  rw [natToChars_four_digit y.toNat hyN1 hyN2]
  rw [padStart2_natToChars (m + 1) (by omega)]
  rw [padStart2_natToChars dnum (by omega)]
  simp only [List.cons_append, List.nil_append, List.append_assoc]
  simp [isPaddedYMD,
    isDigitChar_digitChar _ (by omega : y.toNat / 1000 < 10),
    isDigitChar_digitChar _ (by omega : y.toNat / 100 % 10 < 10),
    isDigitChar_digitChar _ (by omega : y.toNat / 10 % 10 < 10),
    isDigitChar_digitChar _ (by omega : y.toNat % 10 < 10),
    isDigitChar_digitChar _ (by omega : (m + 1) / 10 < 10),
    isDigitChar_digitChar _ (by omega : (m + 1) % 10 < 10),
    isDigitChar_digitChar _ (by omega : dnum / 10 < 10),
    isDigitChar_digitChar _ (by omega : dnum % 10 < 10)]

/-- Claim C6, amended.  For viewed years from 1000 to 9999 (in an
environment at or east of UTC), every grid-cell commit passes `onChange` a
string of the exact zero-padded `"YYYY-MM-DD"` shape: four year digits and
two digits each for month and day.  For years outside that range the year
field is not four digits, because `formatDate` pads month and day but not
the year. -/
theorem onSelectDate_padded (tz : Int) (st : PickerState) (gd : GridDay)
    (htz0 : 0 ≤ tz) (_htz1 : tz < 1440)
    (hy1 : 1000 ≤ st.selectedYear) (hy2 : st.selectedYear ≤ 9999)
    (hm : gd.month < 12) (hd1 : 1 ≤ gd.dayNumber)
    (hd2 : gd.dayNumber ≤ daysInMonth st.selectedYear gd.month) :
    (onSelectDate tz gd st).map (fun p => p.2.map isPaddedYMD) = some (some true) := by
  rw [onSelectDate_commit tz st gd htz0 hy1 hy2 hm hd1 hd2]
  show some (some (isPaddedYMD (formatDateChars ⟨st.selectedYear, gd.month, gd.dayNumber⟩))) = _
  rw [isPaddedYMD_formatDateChars st.selectedYear gd.month gd.dayNumber hy1 hy2 hm hd1
    (le_trans hd2 (daysInMonth_le _ _))]

/-- Claim C6, witness: the March 5 cell viewed in 2024, UTC. -/
theorem onSelectDate_padded_witness :
    (onSelectDate 0 ⟨5, 2⟩ stMarch2024).map (fun p => p.2.map isPaddedYMD) =
      some (some true) :=
  onSelectDate_padded 0 stMarch2024 ⟨5, 2⟩ (by decide) (by decide) (by decide) (by decide)
    (by decide) (by decide) (by decide)

theorem normYM_small (y : Int) (m : Int) (h0 : 0 ≤ m) (h12 : m < 12) :
    normYM y m = (y, m.toNat) := by
  have hd : m.ediv 12 = 0 := Int.ediv_eq_zero_of_lt h0 h12
  have hm : m.emod 12 = m := Int.emod_eq_of_lt h0 h12
  unfold normYM
  rw [hd, hm]
  simp

theorem rollDay_id (y : Int) (m : Nat) (day : Nat) (h : day ≤ daysInMonth y m) :
    rollDay y m day = ⟨y, m, day⟩ := by
  unfold rollDay
  rw [if_pos h]

theorem getCurrentTimeFrame_benign (now : JsDate) (sm : Nat) (sy : Int)
    (h2 : now.day ≤ 28) (h3 : sm < 12) :
    getCurrentTimeFrame now sm sy = ⟨sy, sm, now.day⟩ := by
  unfold getCurrentTimeFrame setMonth
  rw [normYM_small now.year (sm : Int) (by omega) (by exact_mod_cast h3)]
  simp only [Int.toNat_natCast]
  rw [rollDay_id now.year sm now.day (le_trans h2 (daysInMonth_ge _ _))]
  unfold setFullYear
  exact rollDay_id sy sm now.day (le_trans h2 (daysInMonth_ge _ _))

theorem setMonth_prev_benign (sy : Int) (sm : Nat) (dday : Nat)
    (h2 : dday ≤ 28) (h3 : sm < 12) :
    setMonth ⟨sy, sm, dday⟩ ((sm : Int) - 1) =
      ⟨(prevYM sy sm).1, (prevYM sy sm).2, dday⟩ := by
  by_cases h0 : sm = 0
  · subst h0
    have hp1 : (prevYM sy 0).1 = sy - 1 := rfl
    have hp2 : (prevYM sy 0).2 = 11 := rfl
    rw [hp1, hp2]
    unfold setMonth normYM
    rw [show ((0 : Nat) : Int) - 1 = -1 by norm_num]
    rw [show (-1 : Int).ediv 12 = -1 by decide]
    rw [show (-1 : Int).emod 12 = 11 by decide]
    rw [show ((11 : Int)).toNat = 11 from rfl]
    rw [show sy + (-1 : Int) = sy - 1 by ring]
    exact rollDay_id _ _ dday (le_trans h2 (daysInMonth_ge _ _))
  · have hp1 : (prevYM sy sm).1 = sy := by
      unfold prevYM
      rw [if_neg h0]
    have hp2 : (prevYM sy sm).2 = sm - 1 := by
      unfold prevYM
      rw [if_neg h0]
    rw [hp1, hp2]
    unfold setMonth
    rw [show (sm : Int) - 1 = ((sm - 1 : Nat) : Int) by omega]
    rw [normYM_small sy _ (by omega) (by omega)]
    simp only [Int.toNat_natCast]
    exact rollDay_id sy (sm - 1) dday (le_trans h2 (daysInMonth_ge _ _))

theorem getDaysAmountInMonth_eq (y : Int) (m : Nat) (dday : Nat) (h3 : m < 12) :
    getDaysAmountInMonth ⟨y, m, dday⟩ = daysInMonth y m := by
  unfold getDaysAmountInMonth jsMkDate
  by_cases h11 : m = 11
  · subst h11
    have hnorm : normYM y ((11 : Nat) + 1 : Int) = (y + 1, 0) := by
      unfold normYM
      norm_num
    simp only [hnorm]
    rw [if_neg (by omega : ¬ (1 : Nat) = 0)]
    rw [rollDay_id (y + 1) 0 1 (by have := daysInMonth_ge (y + 1) 0; omega)]
    unfold setDate
    rw [if_neg (by omega : ¬ (1 : Int) ≤ 0)]
    unfold prevYM
    simp
  · have hcast : ((m : Int) + 1) = ((m + 1 : Nat) : Int) := by omega
    rw [hcast, normYM_small y _ (by omega) (by omega)]
    simp only [Int.toNat_natCast]
    rw [if_neg (by omega : ¬ (1 : Nat) = 0)]
    rw [rollDay_id y (m + 1) 1 (by have := daysInMonth_ge y (m + 1); omega)]
    unfold setDate
    rw [if_neg (by omega : ¬ (1 : Int) ≤ 0)]
    unfold prevYM
    rw [if_neg (by omega : ¬ m + 1 = 0)]
    simp

theorem setDate_one (y : Int) (m : Nat) (dday : Nat) :
    setDate ⟨y, m, dday⟩ 1 = ⟨y, m, 1⟩ := by
  unfold setDate
  rw [if_pos (by omega : (1 : Int) ≤ 1)]
  exact rollDay_id y m 1 (by have := daysInMonth_ge y m; omega)

theorem mondayIndex_le (w : Nat) (h : w < 7) : mondayIndex w ≤ 6 := by
  unfold mondayIndex
  split <;> omega

theorem dbm_eq_mondayIndex (w : Nat) :
    (if ((w : Int) - 1) < 0 then (6 : Nat) else ((w : Int) - 1).toNat) = mondayIndex w := by
  unfold mondayIndex
  by_cases h : w = 0
  · subst h
    norm_num
  · rw [if_neg (by omega : ¬ ((w : Int) - 1) < 0), if_neg h]
    omega

theorem prevYM_snd (sy : Int) (sm : Nat) (h3 : sm < 12) :
    (prevYM sy sm).2 = (sm + 11) % 12 := by
  unfold prevYM
  by_cases h0 : sm = 0
  · subst h0
    rfl
  · rw [if_neg h0]
    omega

theorem prevYM_snd_lt (sy : Int) (sm : Nat) (h3 : sm < 12) : (prevYM sy sm).2 < 12 := by
  unfold prevYM
  split <;> omega

/-- For a seed date whose day of month is at most 28 (so no JavaScript
day-overflow roll can occur in `setMonth` / `setFullYear`), the grid
decomposes exactly into the trailing previous-month cells (as many as the
Monday-offset of the 1st), all days of the viewed month, and the filler
cells of the following month. -/
theorem buildDaysGrid_benign (now : JsDate) (sm : Nat) (sy : Int)
    (h2 : now.day ≤ 28) (h3 : sm < 12) :
    buildDaysGrid now sm sy =
      prevMonthLastDays (daysInMonth (prevYM sy sm).1 (prevYM sy sm).2) ((prevYM sy sm).2)
          (mondayIndex (getDay ⟨sy, sm, 1⟩)) ++
        (List.range (daysInMonth sy sm)).map (fun i => ⟨i + 1, sm⟩) ++
        (List.range (42 - (mondayIndex (getDay ⟨sy, sm, 1⟩) + daysInMonth sy sm))).map
          (fun i => ⟨i + 1, (setMonth ⟨sy, sm, now.day⟩ ((sm : Int) + 1)).month⟩) := by
  have hframe := getCurrentTimeFrame_benign now sm sy h2 h3
  simp only [buildDaysGrid]
  rw [hframe]
  rw [setMonth_prev_benign sy sm now.day h2 h3]
  rw [getDaysAmountInMonth_eq (prevYM sy sm).1 (prevYM sy sm).2 now.day (prevYM_snd_lt sy sm h3)]
  rw [setDate_one]
  rw [getDaysAmountInMonth_eq sy sm now.day h3]
  rw [dbm_eq_mondayIndex (getDay ⟨sy, sm, 1⟩)]
  simp only [List.length_append, List.length_map, List.length_range, prevMonthLastDays_length]

/-- Claim C1, amended.  For every viewed month index 0-11 and year, and
every seed current date whose day of month is at most 28, `buildDaysGrid`
produces exactly 42 entries; the entry for day 1 of the viewed month sits
at the offset given by the weekday of the 1st in a Monday-start week (a
value between 0 and 6), and every cell before it is tagged with the
previous month's index.  (Seed days 29-31 can roll the frame into the
following month and break the claim.) -/
theorem buildDaysGrid_42_day1 (now : JsDate) (sm : Nat) (sy : Int)
    (_h1 : 1 ≤ now.day) (h2 : now.day ≤ 28) (h3 : sm < 12) :
    gridClaimAt now sm sy := by
  have hw := getDay_lt ⟨sy, sm, 1⟩
  have hmi := mondayIndex_le (getDay ⟨sy, sm, 1⟩) hw
  have hC1 := daysInMonth_ge sy sm
  have hC2 := daysInMonth_le sy sm
  have hgrid := buildDaysGrid_benign now sm sy h2 h3
  have hA : (prevMonthLastDays (daysInMonth (prevYM sy sm).1 (prevYM sy sm).2)
      ((prevYM sy sm).2) (mondayIndex (getDay ⟨sy, sm, 1⟩))).length =
      mondayIndex (getDay ⟨sy, sm, 1⟩) := prevMonthLastDays_length _ _ _
  refine ⟨?_, hmi, ?_, ?_⟩
  · rw [hgrid]
    simp only [List.length_append, List.length_map, List.length_range, prevMonthLastDays_length]
    omega
  · rw [hgrid]
    rw [List.getElem?_append_left (by
      simp only [List.length_append, List.length_map, List.length_range,
        prevMonthLastDays_length]
      omega)]
    rw [List.getElem?_append_right (le_of_eq hA)]
    rw [hA]
    rw [Nat.sub_self]
    rw [List.getElem?_map, List.getElem?_range (by omega : 0 < daysInMonth sy sm)]
    rfl
  · rw [hgrid]
    rw [List.take_append_of_le_length (by
      simp only [List.length_append, List.length_map, List.length_range,
        prevMonthLastDays_length]
      omega)]
    rw [List.take_append_of_le_length (le_of_eq hA.symm)]
    rw [List.take_of_length_le (le_of_eq hA)]
    rw [List.all_eq_true]
    intro g hg
    have hmonth := prevMonthLastDays_month _ _ _ g hg
    rw [beq_iff_eq, hmonth]
    exact prevYM_snd sy sm h3

/-- Claim C1, witness: March 2024 viewed with current date March 15. -/
theorem buildDaysGrid_42_day1_witness : gridClaimAt ⟨2024, 2, 15⟩ 2 2024 :=
  buildDaysGrid_42_day1 ⟨2024, 2, 15⟩ 2 2024 (by decide) (by decide) (by decide)

/-! ## When the onChange callback can fire -/

/-- Claim C8.  Across every event of the widget — grid-cell click, input
keystroke, month or year selector change, input click
(opening/closing/repositioning the overlay), outside click — a step that
invokes the `onChange` callback is either a grid-cell selection or a
manual input of exactly 10 characters on which the date constructor
succeeds.  No other event ever fires the callback. -/
theorem step_emits_only_commit (now : JsDate) (tz : Int) (ev : PickerEvent)
    (st st2 : PickerState) (em : List Char)
    (h : step now tz ev st = some (st2, some em)) :
    (∃ gd, ev = PickerEvent.selectCell gd) ∨
      (∃ cs, ev = PickerEvent.manualInput cs ∧ cs.length = 10 ∧
        (jsNewDateStr cs tz).isSome) := by
  cases ev with
  | selectCell gd => exact Or.inl ⟨gd, rfl⟩
  | manualInput cs =>
    refine Or.inr ⟨cs, rfl, ?_⟩
    simp only [step] at h
    have hr2 : (handleManualDateChange tz cs st).2 = some em := by
      split at h
      · rw [Option.some.injEq, Prod.mk.injEq] at h
        exact h.2
      · rw [Option.some.injEq, Prod.mk.injEq] at h
        exact h.2
    by_cases hlen : cs.length = 10
    · refine ⟨hlen, ?_⟩
      unfold handleManualDateChange at hr2
      rw [if_pos hlen] at hr2
      cases hjs : jsNewDateStr cs tz with
      | none =>
        rw [hjs] at hr2
        exact absurd hr2 (by simp)
      | some dt => simp
    · exfalso
      unfold handleManualDateChange at hr2
      rw [if_neg hlen] at hr2
      exact absurd hr2 (by simp)
  | monthSelect m => simp [step] at h
  | yearSelect y => simp [step] at h
  | inputClick topOffset => simp [step] at h
  | outsideClick insideModal isInputTarget =>
    simp only [step] at h
    split at h <;> simp at h

/-- Claim C8, witness: the manual entry `"2024-03-01"` does emit, and the
theorem classifies it as a valid manual commit. -/
theorem step_emits_only_commit_witness :
    (∃ gd, PickerEvent.manualInput ("2024-03-01".data) = PickerEvent.selectCell gd) ∨
      (∃ cs, PickerEvent.manualInput ("2024-03-01".data) = PickerEvent.manualInput cs ∧
        cs.length = 10 ∧ (jsNewDateStr cs 0).isSome) :=
  step_emits_only_commit now0 0 (PickerEvent.manualInput ("2024-03-01".data)) stMarch2024
    ⟨true, CalendarPos.top, [], 2, 2024, ⟨⟨2024, 2, 1⟩, 0⟩, "2024-03-01".data⟩
    ("2024-03-01".data) (by decide)
